import Mathlib

/-!
Verification of the context-expansion pipeline in
`10_guides_zero_to_hero/02_expand_context.py`.

The Python functions are shallowly embedded as Lean definitions:
strings stay strings, Python lists become `List`, Python dicts (which
preserve insertion order) become association lists, the external LLM
generation capability becomes an explicit parameter
`gen : String → String × ℚ` returning the response text and the
measured latency, and the external tokenizer becomes an explicit
parameter `ct : String → ℚ`.  Numeric values (latencies, token counts,
scores) are modelled as exact rationals.
-/

set_option autoImplicit false

/-- Model of the Python `sep.join(parts)` operation: empty string on the empty list, the sole
element on a singleton, and otherwise the elements interleaved with
`sep`. -/
def pyJoin (sep : String) : List String → String
  | [] => ""
  | [x] => x
  | x :: y :: xs => x ++ sep ++ pyJoin sep (y :: xs)

theorem pyJoin_nil (sep : String) : pyJoin sep [] = "" := rfl

theorem pyJoin_singleton (sep x : String) : pyJoin sep [x] = x := rfl

theorem pyJoin_cons_cons (sep x y : String) (xs : List String) :
    pyJoin sep (x :: y :: xs) = x ++ sep ++ pyJoin sep (y :: xs) := rfl

theorem pyJoin_cons (sep x : String) (xs : List String) (h : xs ≠ []) :
    pyJoin sep (x :: xs) = x ++ sep ++ pyJoin sep xs := by
  cases xs with
  | nil => exact absurd rfl h
  | cons y ys => rfl

theorem pyJoin_append (sep : String) (xs ys : List String)
    (hxs : xs ≠ []) (hys : ys ≠ []) :
    pyJoin sep (xs ++ ys) = pyJoin sep xs ++ sep ++ pyJoin sep ys := by
  induction xs with
  | nil => exact absurd rfl hxs
  | cons x xs ih =>
    cases xs with
    | nil =>
      cases ys with
      | nil => exact absurd rfl hys
      | cons y ys => simp [pyJoin]
    | cons x' xs' =>
      have h1 : (x' :: xs') ++ ys ≠ [] := by simp
      rw [List.cons_append, pyJoin_cons sep x _ h1,
        pyJoin_cons_cons, ih (by simp)]
      simp [String.append_assoc]

/-- Joining a list in which one element is itself a join of a nonempty
list is the same as joining the flattened list. -/
theorem pyJoin_collapse (sep : String) (xs zs : List String)
    (y : String) (ys : List String) :
    pyJoin sep (xs ++ pyJoin sep (y :: ys) :: zs) =
      pyJoin sep (xs ++ (y :: ys) ++ zs) := by
  induction xs with
  | nil =>
    cases zs with
    | nil =>
      simp only [List.nil_append, List.append_nil]
      exact pyJoin_singleton sep _
    | cons z zs' =>
      rw [List.nil_append, List.nil_append,
        pyJoin_cons sep _ _ (by simp),
        pyJoin_append sep (y :: ys) (z :: zs') (by simp) (by simp)]
  | cons x xs ih =>
    have h1 : xs ++ pyJoin sep (y :: ys) :: zs ≠ [] := by simp
    have h2 : (xs ++ y :: ys) ++ zs ≠ [] := by simp
    calc pyJoin sep ((x :: xs) ++ pyJoin sep (y :: ys) :: zs)
        = x ++ sep ++ pyJoin sep (xs ++ pyJoin sep (y :: ys) :: zs) :=
          pyJoin_cons sep x _ h1
      _ = x ++ sep ++ pyJoin sep (xs ++ (y :: ys) ++ zs) := by rw [ih]
      _ = pyJoin sep ((x :: xs) ++ (y :: ys) ++ zs) :=
          (pyJoin_cons sep x _ h2).symm

/-- Helper for `pySplit`: walks the character list accumulating the
current (reversed) word, emitting a word at each whitespace boundary.
This models the Python `str.split()` call with no arguments, which splits on
runs of whitespace and never yields empty words. -/
def splitWsAux : List Char → List Char → List (List Char)
  | [], acc => if acc.isEmpty then [] else [acc.reverse]
  | c :: cs, acc =>
    if c.isWhitespace then
      if acc.isEmpty then splitWsAux cs [] else acc.reverse :: splitWsAux cs []
    else
      splitWsAux cs (c :: acc)

/-- Model of `text.split()` in Python (no separator argument): the
whitespace-delimited words of `text`, with no empty words. -/
def pySplit (text : String) : List String :=
  (splitWsAux text.data []).map fun l => ⟨l⟩

/-- Model of `text.lower()` in Python, applied characterwise. -/
def strLower (s : String) : String := ⟨s.data.map Char.toLower⟩

/-- Boolean list-front test used by the substring check. -/
def isFrontOf : List Char → List Char → Bool
  | [], _ => true
  | _ :: _, [] => false
  | a :: as, b :: bs => a == b && isFrontOf as bs

/-- Model of the Python substring containment `needle in hay` on character
lists: some suffix of `hay` starts with `needle`. -/
def containsSub : List Char → List Char → Bool
  | needle, [] => needle.isEmpty
  | needle, c :: cs => isFrontOf needle (c :: cs) || containsSub needle cs

/-- Model of the Python test `needle in hay` for strings. -/
def strContains (needle hay : String) : Bool := containsSub needle.data hay.data

/-- The fallback branch of `count_tokens` (used when no exact tokenizer
is configured): `len(text.split()) * 1.3`.  The Python literal `1.3`
is modelled as the exact rational 13/10.  Note the Python code does
not round and therefore returns a float, despite the declared return type of the function, which is `int`. -/
def count_tokens_fallback (text : String) : ℚ :=
  ((pySplit text).length : ℚ) * (13 / 10)

/-- The dictionary returned by `calculate_metrics`. -/
structure Metrics where
  prompt_tokens : ℚ
  response_tokens : ℚ
  token_efficiency : ℚ
  latency : ℚ
  latency_per_1k : ℚ
  deriving Repr, DecidableEq

/-- The function `calculate_metrics(prompt, response, latency)` from the source,
parameterised by the tokenizer capability `ct` (the Python code calls
the module-level `count_tokens`). -/
def calculate_metrics (ct : String → ℚ) (prompt response : String)
    (latency : ℚ) : Metrics :=
  let prompt_tokens := ct prompt
  let response_tokens := ct response
  { prompt_tokens := prompt_tokens
    response_tokens := response_tokens
    token_efficiency := if prompt_tokens > 0 then response_tokens / prompt_tokens else 0
    latency := latency
    latency_per_1k := if prompt_tokens > 0 then latency / prompt_tokens * 1000 else 0 }

/-- The function `create_expanded_context` from the source.  Each optional argument
is a Python `Optional` parameter defaulting to `None`; the source tests
each with Python truthiness (`if role:` etc.), so `None`, the empty
string and the empty list are all skipped.  The parts list is built in
the order used by the source (role, base, audience, tone, output format,
requirements, examples) and joined with a blank line. -/
def create_expanded_context (base_prompt : String)
    (role : Option String := none)
    (examples : Option (List String) := none)
    (constraints : Option (List String) := none)
    (audience : Option String := none)
    (tone : Option String := none)
    (output_format : Option String := none) : String :=
  let context_parts : List String :=
    (match role with
      | some r => if r = "" then [] else ["You are " ++ r ++ "."]
      | none => [])
    ++ [base_prompt]
    ++ (match audience with
      | some a => if a = "" then [] else
          ["Your response should be suitable for " ++ a ++ "."]
      | none => [])
    ++ (match tone with
      | some t => if t = "" then [] else
          ["Use a " ++ t ++ " tone in your response."]
      | none => [])
    ++ (match output_format with
      | some f => if f = "" then [] else
          ["Format your response as " ++ f ++ "."]
      | none => [])
    ++ (match constraints with
      | some cs => if cs = [] then [] else
          "Requirements:" :: cs.map (fun c => "- " ++ c)
      | none => [])
    ++ (match examples with
      | some es => if es = [] then [] else
          "Examples:" :: (es.enumFrom 1).map
            (fun p => "Example " ++ toString p.1 ++ ":\n" ++ p.2)
      | none => [])
  pyJoin "\n\n" context_parts

/-- The Composer output as the specification describes it: a list of
present sections — the role clause, the base instruction, the audience
clause, the tone clause, the output-format clause, a single
"Requirements" block, and a single "Examples" block — joined by blank
lines, where each block is itself one section string. -/
def spec_expanded_sections (base_prompt : String)
    (role : Option String) (examples : Option (List String))
    (constraints : Option (List String)) (audience : Option String)
    (tone : Option String) (output_format : Option String) :
    List String :=
  (match role with
    | some r => if r = "" then [] else ["You are " ++ r ++ "."]
    | none => [])
  ++ [base_prompt]
  ++ (match audience with
    | some a => if a = "" then [] else
        ["Your response should be suitable for " ++ a ++ "."]
    | none => [])
  ++ (match tone with
    | some t => if t = "" then [] else
        ["Use a " ++ t ++ " tone in your response."]
    | none => [])
  ++ (match output_format with
    | some f => if f = "" then [] else
        ["Format your response as " ++ f ++ "."]
    | none => [])
  ++ (match constraints with
    | some cs => if cs = [] then [] else
        [pyJoin "\n\n" ("Requirements:" :: cs.map (fun c => "- " ++ c))]
    | none => [])
  ++ (match examples with
    | some es => if es = [] then [] else
        [pyJoin "\n\n" ("Examples:" :: (es.enumFrom 1).map
          (fun p => "Example " ++ toString p.1 ++ ":\n" ++ p.2))]
    | none => [])

/-- Specification-side rendering of the Composer: the present sections
in canonical order, separated by blank lines. -/
def spec_create_expanded_context (base_prompt : String)
    (role : Option String) (examples : Option (List String))
    (constraints : Option (List String)) (audience : Option String)
    (tone : Option String) (output_format : Option String) : String :=
  pyJoin "\n\n" (spec_expanded_sections base_prompt role examples
    constraints audience tone output_format)

/-- Replacing each of the two trailing blocks by the blank-line join of
its parts does not change the overall blank-line join. -/
theorem pyJoin_collapse_blocks (sep : String)
    (A creq cex sreq sex : List String)
    (hreq : creq = [] ∧ sreq = [] ∨
      ∃ y ys, creq = y :: ys ∧ sreq = [pyJoin sep (y :: ys)])
    (hex : cex = [] ∧ sex = [] ∨
      ∃ z zs, cex = z :: zs ∧ sex = [pyJoin sep (z :: zs)]) :
    pyJoin sep (A ++ sreq ++ sex) = pyJoin sep (A ++ creq ++ cex) := by
  rcases hreq with ⟨h1, h2⟩ | ⟨y, ys, h1, h2⟩ <;>
    rcases hex with ⟨h3, h4⟩ | ⟨z, zs, h3, h4⟩ <;>
      subst h1 <;> subst h2 <;> subst h3 <;> subst h4
  · rfl
  · simpa using pyJoin_collapse sep A [] z zs
  · simpa using pyJoin_collapse sep A [] y ys
  · calc pyJoin sep (A ++ [pyJoin sep (y :: ys)] ++ [pyJoin sep (z :: zs)])
        = pyJoin sep ((A ++ [pyJoin sep (y :: ys)]) ++ (z :: zs)) := by
          simpa using pyJoin_collapse sep (A ++ [pyJoin sep (y :: ys)]) [] z zs
      _ = pyJoin sep (A ++ pyJoin sep (y :: ys) :: (z :: zs)) := by
          simp [List.append_assoc]
      _ = pyJoin sep (A ++ (y :: ys) ++ (z :: zs)) :=
          pyJoin_collapse sep A (z :: zs) y ys

/-- C3: for every base prompt and every combination of present optional
arguments, `create_expanded_context` emits exactly the present sections
in the canonical order (role clause "You are {role}." first, then the
base instruction, audience clause, tone clause, output-format clause,
the "Requirements:" block with "- "-bulleted constraints in input
order, and the "Examples:" block with 1-based "Example i:" labels in
input order), each present section separated by a blank line, absent
sections contributing nothing; with no optional arguments the output is
the base prompt unchanged. -/
theorem create_expanded_context_canonical (base_prompt : String)
    (role : Option String) (examples : Option (List String))
    (constraints : Option (List String)) (audience : Option String)
    (tone : Option String) (output_format : Option String) :
    create_expanded_context base_prompt role examples constraints
        audience tone output_format =
      spec_create_expanded_context base_prompt role examples constraints
        audience tone output_format ∧
    create_expanded_context base_prompt none none none none none none =
      base_prompt := by
  constructor
  · unfold create_expanded_context spec_create_expanded_context
      spec_expanded_sections
    refine (pyJoin_collapse_blocks "\n\n" _ _ _ _ _ ?_ ?_).symm
    · rcases constraints with _ | cs
      · exact Or.inl ⟨rfl, rfl⟩
      · rcases cs with _ | ⟨c, cs'⟩
        · exact Or.inl ⟨by simp, by simp⟩
        · exact Or.inr ⟨"Requirements:",
            (c :: cs').map (fun c => "- " ++ c), by simp, by simp⟩
    · rcases examples with _ | es
      · exact Or.inl ⟨rfl, rfl⟩
      · rcases es with _ | ⟨e, es'⟩
        · exact Or.inl ⟨by simp, by simp⟩
        · exact Or.inr ⟨"Examples:",
            ((e :: es').enumFrom 1).map
              (fun p => "Example " ++ toString p.1 ++ ":\n" ++ p.2),
            by simp, by simp⟩
  · rfl

/-- C10: passing an explicitly empty constraints list or an explicitly
empty examples list to `create_expanded_context` produces the same
output as omitting that argument altogether; in particular no
"Requirements:" or "Examples:" header is emitted for an empty list. -/
theorem create_expanded_context_empty_list_identity (base_prompt : String)
    (role : Option String) (examples constraints : Option (List String))
    (audience tone output_format : Option String) :
    create_expanded_context base_prompt role examples (some [])
        audience tone output_format =
      create_expanded_context base_prompt role examples none
        audience tone output_format ∧
    create_expanded_context base_prompt role (some []) constraints
        audience tone output_format =
      create_expanded_context base_prompt role none constraints
        audience tone output_format ∧
    create_expanded_context base_prompt role (some []) (some [])
        audience tone output_format =
      create_expanded_context base_prompt role none none
        audience tone output_format := by
  refine ⟨?_, ?_, ?_⟩ <;> simp [create_expanded_context]

/-- The function `test_layered_contexts` from the source, parameterised by the
tokenizer capability `ct` and the generation capability `gen` (which
returns the response text and the measured latency).  The Python dicts
`context_layers` and `layer_results`, which preserve insertion order,
are modelled as association lists. -/
def test_layered_contexts (ct : String → ℚ) (gen : String → String × ℚ)
    (base_prompt : String) (context_layers : List (String × String)) :
    List (String × Metrics) :=
  let base := gen base_prompt
  let base_entry := ("base", calculate_metrics ct base_prompt base.1 base.2)
  let layer_entries := context_layers.map fun p =>
    let combined_prompt := base_prompt ++ "\n\n" ++ p.2
    let g := gen combined_prompt
    ("base+" ++ p.1, calculate_metrics ct combined_prompt g.1 g.2)
  let all_layers := pyJoin "\n\n" (context_layers.map Prod.snd)
  let full_prompt := base_prompt ++ "\n\n" ++ all_layers
  let gf := gen full_prompt
  base_entry :: layer_entries ++
    [("all_layers", calculate_metrics ct full_prompt gf.1 gf.2)]

theorem string_append_left_cancel {a b c : String} (h : a ++ b = a ++ c) :
    b = c := by
  have h2 : (a ++ b).data = (a ++ c).data := congrArg String.data h
  rw [String.data_append, String.data_append] at h2
  have h3 := List.append_cancel_left h2
  cases b; cases c; exact congrArg String.mk h3

theorem basePlus_ne_base (n : String) : "base+" ++ n ≠ "base" := by
  intro h
  have h2 : ("base+" ++ n).data.length = ("base".data).length :=
    congrArg (fun s => s.data.length) h
  rw [String.data_append, List.length_append] at h2
  have e1 : ("base+".data).length = 5 := rfl
  have e2 : ("base".data).length = 4 := rfl
  rw [e1, e2] at h2
  omega

theorem basePlus_ne_all_layers (n : String) : "base+" ++ n ≠ "all_layers" := by
  intro h
  have h2 : ("base+" ++ n).data = "all_layers".data := congrArg String.data h
  rw [String.data_append] at h2
  have h3 : ('b' :: "ase+".data) ++ n.data = 'a' :: "ll_layers".data := h2
  rw [List.cons_append] at h3
  exact absurd (List.head_eq_of_cons_eq h3) (by decide)

/-- C5: for every tokenizer, generation capability, base prompt and
mapping of k named context layers (names distinct, as in a Python
dict), `test_layered_contexts` returns a result mapping with exactly
k + 2 entries whose keys in insertion order are "base", then
"base+{name}" for each layer in order, then "all_layers"; the keys are
pairwise distinct, and each per-layer entry measures exactly the string
base_prompt ++ "\n\n" ++ layer_text. -/
theorem test_layered_contexts_shape (ct : String → ℚ)
    (gen : String → String × ℚ) (base_prompt : String)
    (context_layers : List (String × String))
    (h : (context_layers.map Prod.fst).Nodup) :
    (test_layered_contexts ct gen base_prompt context_layers).length =
      context_layers.length + 2 ∧
    (test_layered_contexts ct gen base_prompt context_layers).map Prod.fst =
      "base" :: (context_layers.map fun p => "base+" ++ p.1) ++ ["all_layers"] ∧
    ((test_layered_contexts ct gen base_prompt context_layers).map
      Prod.fst).Nodup ∧
    ∀ p ∈ context_layers,
      ("base+" ++ p.1,
        calculate_metrics ct (base_prompt ++ "\n\n" ++ p.2)
          (gen (base_prompt ++ "\n\n" ++ p.2)).1
          (gen (base_prompt ++ "\n\n" ++ p.2)).2) ∈
        test_layered_contexts ct gen base_prompt context_layers := by
  have hkeys : (test_layered_contexts ct gen base_prompt
      context_layers).map Prod.fst =
      "base" :: (context_layers.map fun p => "base+" ++ p.1) ++
        ["all_layers"] := by
    simp [test_layered_contexts, List.map_map, Function.comp]
  refine ⟨?_, hkeys, ?_, ?_⟩
  · simp [test_layered_contexts]
  · rw [hkeys]
    have hmap : (context_layers.map fun p => "base+" ++ p.1).Nodup := by
      have h2 := h.map (f := fun n => "base+" ++ n)
        fun a b hab => string_append_left_cancel hab
      rw [List.map_map] at h2
      exact h2
    refine List.nodup_cons.2 ⟨?_, ?_⟩
    · intro hmem
      rcases List.mem_append.1 hmem with hmem | hmem
      · rcases List.mem_map.1 hmem with ⟨p, _, hp⟩
        exact basePlus_ne_base p.1 hp
      · simp at hmem
    · refine (List.nodup_append).2 ⟨hmap, List.nodup_singleton _, ?_⟩
      intro a ha hb
      rcases List.mem_map.1 ha with ⟨p, _, hp⟩
      simp only [List.mem_singleton] at hb
      exact basePlus_ne_all_layers p.1 (hp.trans hb)
  · intro p hp
    unfold test_layered_contexts
    exact List.mem_cons_of_mem _
      (List.mem_append_left _ (List.mem_map.2 ⟨p, hp, rfl⟩))

/-- The function `compress_context` from the source, parameterised by the
generation capability.  The result is paired with the list of prompts
sent to the generation capability, so that the number of generation
calls made by each branch is part of the model (each branch of the
Python code calls `generate_response` exactly once; the final `else`
branch calls it zero times). -/
def compress_context (gen : String → String × ℚ) (context : String)
    (technique : String := "summarize") : String × List String :=
  if technique = "summarize" then
    let prompt := "Summarize the following context in a concise way that preserves all key information:\n"
      ++ context
    ((gen prompt).1, [prompt])
  else if technique = "keywords" then
    let prompt := "Extract the most important keywords and phrases from this context:\n"
      ++ context ++ "\nFormat your response as a comma-separated list."
    ((gen prompt).1, [prompt])
  else if technique = "bullet" then
    let prompt := "Convert this context into a concise list of bullet points that\ncaptures all essential information:\n"
      ++ context
    ((gen prompt).1, [prompt])
  else
    (context, [])

/-- C8: for every technique label outside {summarize, keywords, bullet},
`compress_context` returns the input context unchanged and makes zero
calls to the generation capability, for every generation capability and
every context. -/
theorem compress_context_passthrough (gen : String → String × ℚ)
    (context technique : String)
    (h1 : technique ≠ "summarize") (h2 : technique ≠ "keywords")
    (h3 : technique ≠ "bullet") :
    compress_context gen context technique = (context, []) := by
  unfold compress_context
  rw [if_neg h1, if_neg h2, if_neg h3]

/-- Witness for C8 at the technique label "unknown_technique". -/
theorem compress_context_passthrough_witness :
    compress_context (fun p => (p, 0)) "ctx" "unknown_technique" =
      ("ctx", []) :=
  compress_context_passthrough (fun p => (p, 0)) "ctx" "unknown_technique"
    (by decide) (by decide) (by decide)

/-- One attempt of the regex `\d+\.\d+` at the front of `l`: one or
more digits (greedy), a literal dot, one or more digits (greedy).
Returns the matched text and the remaining characters.  Backtracking
cannot help this pattern: shortening either greedy digit run would put
a digit where the dot or the end of the run is required, so the greedy
reading is exact. -/
def matchDec (l : List Char) : Option (String × List Char) :=
  if (l.takeWhile Char.isDigit).isEmpty then none
  else
    match l.dropWhile Char.isDigit with
    | '.' :: r2 =>
      if (r2.takeWhile Char.isDigit).isEmpty then none
      else
        some (⟨l.takeWhile Char.isDigit ++ '.' :: r2.takeWhile Char.isDigit⟩,
          r2.dropWhile Char.isDigit)
    | _ => none

/-- Model of `re.findall(r"(\d+\.\d+)", ...)`: leftmost non-overlapping greedy
matches, scanning left to right and resuming after each match.  The
first argument is recursion fuel; every step consumes at least one
character, so any fuel at least the length of the list is sufficient
(`findallDecF_fuel` below), and `findallDec` passes the length. -/
def findallDecF : Nat → List Char → List String
  | 0, _ => []
  | _ + 1, [] => []
  | fuel + 1, c :: cs =>
    match matchDec (c :: cs) with
    | some (m, rest) => m :: findallDecF fuel rest
    | none => findallDecF fuel cs

/-- All matches of `\d+\.\d+` in `l`, leftmost first. -/
def findallDec (l : List Char) : List String := findallDecF l.length l

theorem matchDec_length {l : List Char} {m : String} {rest : List Char}
    (h : matchDec l = some (m, rest)) : rest.length < l.length := by
  unfold matchDec at h
  split at h
  · exact absurd h (by simp)
  next hd1 =>
    split at h
    next r2 heq =>
      split at h
      · exact absurd h (by simp)
      next hd2 =>
        cases h
        have h3 : (l.takeWhile Char.isDigit).length +
            (l.dropWhile Char.isDigit).length = l.length := by
          conv_rhs => rw [← List.takeWhile_append_dropWhile
            (p := Char.isDigit) (l := l)]
          rw [List.length_append]
        have h4 : (l.dropWhile Char.isDigit).length = r2.length + 1 := by
          rw [heq]; simp
        have h5 : (r2.dropWhile Char.isDigit).length ≤ r2.length :=
          (List.dropWhile_suffix _).length_le
        have h6 : (l.takeWhile Char.isDigit).length ≠ 0 := by
          intro h0
          exact hd1 (by simpa [List.isEmpty_iff, List.length_eq_zero] using h0)
        omega
    next => exact absurd h (by simp)

theorem findallDecF_fuel (n : Nat) :
    ∀ (m : Nat) (l : List Char), l.length ≤ n → l.length ≤ m →
      findallDecF n l = findallDecF m l := by
  induction n with
  | zero =>
    intro m l hn _
    have h0 : l = [] := List.length_eq_zero.1 (Nat.le_zero.1 hn)
    subst h0
    cases m <;> rfl
  | succ n ih =>
    intro m l hn hm
    cases l with
    | nil => cases m <;> rfl
    | cons c cs =>
      cases m with
      | zero => simp at hm
      | succ m =>
        cases hmd : matchDec (c :: cs) with
        | some pr =>
          rcases pr with ⟨x, rest⟩
          have hlen := matchDec_length hmd
          simp only [findallDecF, hmd]
          refine congrArg (x :: ·) (ih m rest ?_ ?_)
          · simp only [List.length_cons] at hn hlen; omega
          · simp only [List.length_cons] at hm hlen; omega
        | none =>
          simp only [findallDecF, hmd]
          refine ih m cs ?_ ?_
          · simp only [List.length_cons] at hn; omega
          · simp only [List.length_cons] at hm; omega

/-- Digit characters to the natural number they denote. -/
def digitsToNat (ds : List Char) : Nat :=
  ds.foldl (fun acc c => 10 * acc + (c.toNat - 48)) 0

/-- Model of the Python conversion `float(s)` for the strings matched by `\d+\.\d+`
(decimal digits, a dot, decimal digits), as the exact rational value
of the decimal numeral.  IEEE rounding of the Python float is
abstracted to exact rational arithmetic. -/
def parseDec (s : String) : ℚ :=
  match s.data.dropWhile Char.isDigit with
  | '.' :: frac =>
    (digitsToNat (s.data.takeWhile Char.isDigit) : ℚ) +
      (digitsToNat frac : ℚ) / ((10 : ℚ) ^ frac.length)
  | _ => (digitsToNat (s.data.takeWhile Char.isDigit) : ℚ)

/-- The evaluation instruction built by `evaluate_response_quality`:
the prompt, the response and the criteria rendered as a "- " bulleted
list, with a request for an overall score from 0.0 to 1.0. -/
def eval_prompt (prompt response : String) (criteria : List String) :
    String :=
  let criteria_list := pyJoin "\n" (criteria.map fun c => "- " ++ c)
  "Rate the quality of the following response to a prompt. \nPrompt: "
    ++ prompt ++ "\nResponse: " ++ response
    ++ "\nEvaluate based on these criteria:\n" ++ criteria_list
    ++ "\nProvide an overall score from 0.0 to 1.0."

/-- The score-extraction step of `evaluate_response_quality`:
`float(re.findall(r"(\d+\.\d+)", evaluation)[-1])` when the match list
is nonempty, and `0.5` otherwise. -/
def extract_quality_score (evaluation : String) : ℚ :=
  let ms := findallDec evaluation.data
  if ms.isEmpty then 1 / 2 else parseDec (ms.getLastD "")

/-- The function `evaluate_response_quality` from the source, parameterised by the
generation capability. -/
def evaluate_response_quality (gen : String → String × ℚ)
    (prompt response : String) (criteria : List String) : ℚ :=
  extract_quality_score (gen (eval_prompt prompt response criteria)).1

/-- Whether the character list contains a digit immediately followed
by a dot immediately followed by a digit — the minimal substring shape
digit, dot, digit. -/
def hasDecTriple : List Char → Bool
  | a :: b :: c :: rest =>
    (a.isDigit && b == '.' && c.isDigit) || hasDecTriple (b :: c :: rest)
  | _ => false

theorem hasDecTriple_cons (x : Char) (l : List Char)
    (h : hasDecTriple l = true) : hasDecTriple (x :: l) = true := by
  rcases l with _ | ⟨a, _ | ⟨b, _ | ⟨c, r⟩⟩⟩
  · exact absurd h (by simp [hasDecTriple])
  · exact absurd h (by simp [hasDecTriple])
  · exact absurd h (by simp [hasDecTriple])
  · simp only [hasDecTriple] at h ⊢
    simp [h]

theorem hasDecTriple_append (xs l : List Char)
    (h : hasDecTriple l = true) : hasDecTriple (xs ++ l) = true := by
  induction xs with
  | nil => exact h
  | cons x xs ih => exact hasDecTriple_cons x _ ih

theorem matchDec_some_triple {l : List Char} {m : String}
    {rest : List Char} (h : matchDec l = some (m, rest)) :
    hasDecTriple l = true := by
  unfold matchDec at h
  split at h
  · exact absurd h (by simp)
  next hd1 =>
    split at h
    next r2 heq =>
      split at h
      · exact absurd h (by simp)
      next hd2 =>
        have hne1 : l.takeWhile Char.isDigit ≠ [] := by
          intro h0; exact hd1 (by simp [h0])
        have hne2 : r2.takeWhile Char.isDigit ≠ [] := by
          intro h0; exact hd2 (by simp [h0])
        rcases List.eq_nil_or_concat (l.takeWhile Char.isDigit) with h0 | h0
        · exact absurd h0 hne1
        rcases h0 with ⟨d1, dl, hd1eq⟩
        rcases hw2 : r2.takeWhile Char.isDigit with _ | ⟨dh, d2⟩
        · exact absurd hw2 hne2
        have hmem1 : dl ∈ l.takeWhile Char.isDigit := by
          rw [hd1eq, List.concat_eq_append]
          exact List.mem_append_right d1 (List.mem_singleton.2 rfl)
        have hdl : Char.isDigit dl = true := List.mem_takeWhile_imp hmem1
        have hmem2 : dh ∈ r2.takeWhile Char.isDigit := by
          rw [hw2]; exact List.mem_cons_self dh d2
        have hdh : Char.isDigit dh = true := List.mem_takeWhile_imp hmem2
        have hl : l = d1 ++ (dl :: '.' :: dh ::
            (d2 ++ r2.dropWhile Char.isDigit)) := by
          conv_lhs => rw [← List.takeWhile_append_dropWhile
            (p := Char.isDigit) (l := l)]
          rw [hd1eq, List.concat_eq_append, heq]
          conv_lhs => rw [← List.takeWhile_append_dropWhile
            (p := Char.isDigit) (l := r2)]
          rw [hw2]
          simp
        rw [hl]
        refine hasDecTriple_append d1 _ ?_
        simp [hasDecTriple, hdl, hdh]
    next => exact absurd h (by simp)

theorem findallDecF_empty_of_no_triple (n : Nat) :
    ∀ l : List Char, hasDecTriple l = false → findallDecF n l = [] := by
  induction n with
  | zero => intro l _; rfl
  | succ n ih =>
    intro l h
    cases l with
    | nil => rfl
    | cons c cs =>
      cases hmd : matchDec (c :: cs) with
      | some pr =>
        exact absurd (matchDec_some_triple hmd) (by simp [h])
      | none =>
        simp only [findallDecF, hmd]
        refine ih cs ?_
        cases hcs : hasDecTriple cs with
        | false => rfl
        | true => exact absurd (hasDecTriple_cons c cs hcs) (by simp [h])

theorem findallDec_empty_of_no_triple {l : List Char}
    (h : hasDecTriple l = false) : findallDec l = [] :=
  findallDecF_empty_of_no_triple l.length l h

/-- C9: whenever the evaluation text returned by the generation
capability contains no substring of the form digit-dot-digit (for
example a bare integer score such as "Score: 1" or "9/10"),
`evaluate_response_quality` returns the neutral default 0.5: the
extraction pattern requires a decimal point, so integer-only scores
take the fallback path. -/
theorem evaluate_response_quality_integer_fallback
    (gen : String → String × ℚ) (prompt response : String)
    (criteria : List String)
    (h : hasDecTriple ((gen (eval_prompt prompt response criteria)).1).data
      = false) :
    evaluate_response_quality gen prompt response criteria = 1 / 2 := by
  unfold evaluate_response_quality extract_quality_score
  rw [findallDec_empty_of_no_triple h]
  rfl

/-- Witness for C9: the evaluation text "Score: 1" carries a numeric
score but no decimal point, and the result is 0.5. -/
theorem evaluate_response_quality_integer_fallback_witness :
    hasDecTriple (((fun (_ : String) => ("Score: 1", (0 : ℚ)))
        (eval_prompt "p" "r" [])).1).data = false ∧
    evaluate_response_quality (fun _ => ("Score: 1", (0 : ℚ))) "p" "r" [] =
      1 / 2 :=
  ⟨by decide,
    evaluate_response_quality_integer_fallback
      (fun _ => ("Score: 1", (0 : ℚ))) "p" "r" [] (by decide)⟩

/-- C6: if the evaluation text contains decimal-number matches,
`evaluate_response_quality` returns the value of the last match; if it
contains none, it returns exactly 0.5 (and, being a total function,
never fails). -/
theorem evaluate_response_quality_last_match
    (gen : String → String × ℚ) (prompt response : String)
    (criteria : List String) :
    (findallDec ((gen (eval_prompt prompt response criteria)).1).data ≠ [] →
      evaluate_response_quality gen prompt response criteria =
        parseDec ((findallDec
          ((gen (eval_prompt prompt response criteria)).1).data).getLastD "")) ∧
    (findallDec ((gen (eval_prompt prompt response criteria)).1).data = [] →
      evaluate_response_quality gen prompt response criteria = 1 / 2) := by
  unfold evaluate_response_quality extract_quality_score
  constructor
  · intro h
    rw [if_neg (by simpa [List.isEmpty_iff] using h)]
  · intro h
    rw [if_pos (by simpa [List.isEmpty_iff] using h)]

/-- Witness for C6: one evaluation text with two decimal matches
(the last one wins) and one with none. -/
theorem evaluate_response_quality_last_match_witness :
    (evaluate_response_quality
        (fun _ => ("between 0.0 and 1.0: I give 0.85", (0 : ℚ))) "p" "r" [] =
      parseDec ((findallDec
        (((fun (_ : String) => ("between 0.0 and 1.0: I give 0.85", (0 : ℚ)))
          (eval_prompt "p" "r" [])).1).data).getLastD "")) ∧
    (evaluate_response_quality (fun _ => ("no digits here", (0 : ℚ)))
        "p" "r" [] = 1 / 2) :=
  ⟨(evaluate_response_quality_last_match
      (fun _ => ("between 0.0 and 1.0: I give 0.85", (0 : ℚ))) "p" "r" []).1
      (by decide),
    (evaluate_response_quality_last_match
      (fun _ => ("no digits here", (0 : ℚ))) "p" "r" []).2 (by decide)⟩

/-- C1 (amended): the quality score equals the last decimal match of
the evaluation text when one exists and 0.5 otherwise; it therefore
lies in [0.0, 1.0] provided the last decimal match, if any, has value
in [0, 1] — but not for arbitrary generation outputs (see the
counterexample). -/
theorem evaluate_response_quality_bounded
    (gen : String → String × ℚ) (prompt response : String)
    (criteria : List String)
    (h : findallDec ((gen (eval_prompt prompt response criteria)).1).data
        = [] ∨
      (0 ≤ parseDec ((findallDec
          ((gen (eval_prompt prompt response criteria)).1).data).getLastD "")
        ∧ parseDec ((findallDec
          ((gen (eval_prompt prompt response criteria)).1).data).getLastD "")
          ≤ 1)) :
    0 ≤ evaluate_response_quality gen prompt response criteria ∧
      evaluate_response_quality gen prompt response criteria ≤ 1 := by
  unfold evaluate_response_quality extract_quality_score
  by_cases hms :
      (findallDec ((gen (eval_prompt prompt response criteria)).1).data).isEmpty
  · rw [if_pos hms]
    constructor <;> norm_num
  · rw [if_neg hms]
    rcases h with h | h
    · exact absurd (by simp [h, List.isEmpty_iff]) hms
    · exact h

/-- Witness for C1 at an in-range evaluation text "0.5". -/
theorem evaluate_response_quality_bounded_witness :
    0 ≤ evaluate_response_quality (fun _ => ("0.5", (0 : ℚ))) "p" "r" [] ∧
      evaluate_response_quality (fun _ => ("0.5", (0 : ℚ))) "p" "r" [] ≤ 1 :=
  evaluate_response_quality_bounded (fun _ => ("0.5", (0 : ℚ))) "p" "r" []
    (Or.inr (by
      have e : (findallDec (((fun (_ : String) => ("0.5", (0 : ℚ)))
          (eval_prompt "p" "r" [])).1).data).getLastD "" = "0.5" := by decide
      rw [e]
      have h : parseDec "0.5" =
          ((0 : ℕ) : ℚ) + ((5 : ℕ) : ℚ) / (10 : ℚ) ^ (1 : ℕ) := rfl
      rw [h]
      constructor <;> norm_num))

/-- Counterexample to C1 as stated: the generation capability may
return "1.5", and then `evaluate_response_quality` returns 1.5, which
is outside [0.0, 1.0] — no clamping is performed. -/
theorem evaluate_response_quality_unbounded_cex :
    evaluate_response_quality (fun _ => ("1.5", (0 : ℚ))) "p" "r" [] =
      3 / 2 ∧
    ¬ (evaluate_response_quality (fun _ => ("1.5", (0 : ℚ))) "p" "r" []
      ≤ 1) := by
  have h : evaluate_response_quality (fun _ => ("1.5", (0 : ℚ))) "p" "r" [] =
      ((1 : ℕ) : ℚ) + ((5 : ℕ) : ℚ) / (10 : ℚ) ^ (1 : ℕ) := rfl
  rw [h]
  constructor <;> norm_num

/-- A knowledge-base record: a Python dict with keys "title" and
"content". -/
structure KBItem where
  title : String
  content : String
  deriving Repr, DecidableEq

/-- The per-item match test of `retrieve_relevant_info`:
`any(term in content or term in title for term in query_terms)` with
`content` and `title` lowercased (membership in a Python set is what
`any` iterates over; iteration order is irrelevant to `any`, so the
set of query terms is modelled as the list of split terms). -/
def itemMatchesT (query_terms : List String) (item : KBItem) : Bool :=
  query_terms.any fun term =>
    strContains term (strLower item.content) ||
      strContains term (strLower item.title)

/-- The accumulation loop of `retrieve_relevant_info`: walk the
knowledge base in order, appending the (original-case) content of each
matching item. -/
def retrieve_loop (query_terms : List String) : List KBItem → List String
  | [] => []
  | item :: rest =>
    if itemMatchesT query_terms item then
      item.content :: retrieve_loop query_terms rest
    else
      retrieve_loop query_terms rest

/-- The function `retrieve_relevant_info` from the source: query terms are the
whitespace-split words of the lowercased query, and the first 3
matching contents are returned (`relevant_info[:3]`). -/
def retrieve_relevant_info (query : String)
    (knowledge_base : List KBItem) : List String :=
  (retrieve_loop (pySplit (strLower query)) knowledge_base).take 3

/-- The function `create_rag_context` from the source. -/
def create_rag_context (base_prompt query : String)
    (knowledge_base : List KBItem) : String :=
  let relevant_info := retrieve_relevant_info query knowledge_base
  if relevant_info.isEmpty then base_prompt
  else base_prompt ++ "\n\n" ++
    ("Relevant information:\n\n" ++ pyJoin "\n\n" relevant_info)

theorem retrieve_loop_eq_filter_map (query_terms : List String)
    (kb : List KBItem) :
    retrieve_loop query_terms kb =
      (kb.filter (itemMatchesT query_terms)).map KBItem.content := by
  induction kb with
  | nil => rfl
  | cons item rest ih =>
    by_cases h : itemMatchesT query_terms item
    · simp [retrieve_loop, List.filter_cons, h, ih]
    · simp [retrieve_loop, List.filter_cons, h, ih]

/-- C4: if no item of the knowledge base matches any lowercased
whitespace-split query term (as a substring of its lowercased title or
content), `create_rag_context` returns the base prompt unchanged;
otherwise it returns the base prompt, a blank line, the literal
"Relevant information:", a blank line, and the contents of the first
at most 3 matching items in original order, separated by blank
lines. -/
theorem create_rag_context_spec (base_prompt query : String)
    (knowledge_base : List KBItem) :
    (knowledge_base.filter (itemMatchesT (pySplit (strLower query))) = [] →
      create_rag_context base_prompt query knowledge_base = base_prompt) ∧
    (knowledge_base.filter (itemMatchesT (pySplit (strLower query))) ≠ [] →
      create_rag_context base_prompt query knowledge_base =
        base_prompt ++ "\n\n" ++ "Relevant information:" ++ "\n\n" ++
          pyJoin "\n\n" (((knowledge_base.filter
            (itemMatchesT (pySplit (strLower query)))).map
              KBItem.content).take 3)) := by
  have hr : retrieve_relevant_info query knowledge_base =
      ((knowledge_base.filter
        (itemMatchesT (pySplit (strLower query)))).map KBItem.content).take 3 := by
    rw [retrieve_relevant_info, retrieve_loop_eq_filter_map]
  constructor
  · intro h
    unfold create_rag_context
    rw [hr, h]
    rfl
  · intro h
    unfold create_rag_context
    rw [hr, if_neg ?hne]
    case hne =>
      simp only [List.isEmpty_iff, List.take_eq_nil_iff, List.map_eq_nil_iff]
      push_neg
      exact ⟨by omega, h⟩
    have hRI : ∀ s : String, ("Relevant information:\n\n" : String) ++ s =
        "Relevant information:" ++ ("\n\n" ++ s) := by
      intro s
      have e : ("Relevant information:\n\n" : String) =
          "Relevant information:" ++ "\n\n" := by decide
      rw [← String.append_assoc, ← e]
    simp only [String.append_assoc]
    rw [hRI]

/-- Witness for C4: a missing query leaves the base prompt unchanged,
and a matching query appends the matched content after the literal
header. -/
theorem create_rag_context_spec_witness :
    create_rag_context "base" "cat" [⟨"Dogs", "About dogs."⟩] = "base" ∧
    create_rag_context "base" "cat" [⟨"Cats", "About cats."⟩] =
      "base" ++ "\n\n" ++ "Relevant information:" ++ "\n\n" ++
        pyJoin "\n\n" (((([⟨"Cats", "About cats."⟩] : List KBItem).filter
          (itemMatchesT (pySplit (strLower "cat")))).map KBItem.content).take 3) :=
  ⟨(create_rag_context_spec "base" "cat" [⟨"Dogs", "About dogs."⟩]).1
      (by decide),
    (create_rag_context_spec "base" "cat" [⟨"Cats", "About cats."⟩]).2
      (by decide)⟩

/-- C2 (the documented behaviour fails): on the two-word input
"hello world" the fallback branch of `count_tokens` computes
2 * 1.3 = 2.6, which is not an integer at all (denominator 5), and in
particular is not the documented `round(2 * 1.3) = 3`. -/
theorem count_tokens_fallback_not_integer :
    count_tokens_fallback "hello world" = 13 / 5 ∧
    ((13 : ℚ) / 5).den ≠ 1 ∧
    count_tokens_fallback "hello world" ≠ ((3 : ℤ) : ℚ) := by
  have h : count_tokens_fallback "hello world" =
      ((2 : ℕ) : ℚ) * (13 / 10) := rfl
  refine ⟨by rw [h]; norm_num, by norm_num, by rw [h]; norm_num⟩

/-- C7: whenever the tokenizer reports a token count of 0 for the
prompt, `calculate_metrics` returns `token_efficiency = 0` and
`latency_per_1k = 0`; the guarded division never takes place. -/
theorem calculate_metrics_zero_guard (ct : String → ℚ)
    (prompt response : String) (latency : ℚ) (h : ct prompt = 0) :
    (calculate_metrics ct prompt response latency).token_efficiency = 0 ∧
    (calculate_metrics ct prompt response latency).latency_per_1k = 0 := by
  simp [calculate_metrics, h]

/-- Witness for C7: the fallback tokenizer counts 0 tokens for the
empty prompt, and both ratio metrics are 0. -/
theorem calculate_metrics_zero_guard_witness :
    count_tokens_fallback "" = 0 ∧
    (calculate_metrics count_tokens_fallback "" "resp" 5).token_efficiency
      = 0 ∧
    (calculate_metrics count_tokens_fallback "" "resp" 5).latency_per_1k
      = 0 := by
  have h0 : count_tokens_fallback "" = 0 := by
    have h : count_tokens_fallback "" = ((0 : ℕ) : ℚ) * (13 / 10) := rfl
    rw [h]; norm_num
  refine ⟨h0, ?_, ?_⟩
  · exact (calculate_metrics_zero_guard count_tokens_fallback "" "resp" 5 h0).1
  · exact (calculate_metrics_zero_guard count_tokens_fallback "" "resp" 5 h0).2

/-- Witness for C5 at two concrete layers with distinct names. -/
theorem test_layered_contexts_shape_witness :
    (([("l1", "x"), ("l2", "y")].map
      (Prod.fst (α := String) (β := String))).Nodup) ∧
    ((test_layered_contexts (fun _ => 0) (fun _ => ("", 0)) "b"
        [("l1", "x"), ("l2", "y")]).length =
      ([("l1", "x"), ("l2", "y")] : List (String × String)).length + 2 ∧
    (test_layered_contexts (fun _ => 0) (fun _ => ("", 0)) "b"
        [("l1", "x"), ("l2", "y")]).map Prod.fst =
      "base" :: (([("l1", "x"), ("l2", "y")] : List (String × String)).map
        fun p => "base+" ++ p.1) ++ ["all_layers"] ∧
    ((test_layered_contexts (fun _ => 0) (fun _ => ("", 0)) "b"
        [("l1", "x"), ("l2", "y")]).map Prod.fst).Nodup ∧
    ∀ p ∈ ([("l1", "x"), ("l2", "y")] : List (String × String)),
      ("base+" ++ p.1,
        calculate_metrics (fun _ => 0) ("b" ++ "\n\n" ++ p.2)
          ((fun (_ : String) => ("", (0 : ℚ))) ("b" ++ "\n\n" ++ p.2)).1
          ((fun (_ : String) => ("", (0 : ℚ))) ("b" ++ "\n\n" ++ p.2)).2) ∈
        test_layered_contexts (fun _ => 0) (fun _ => ("", 0)) "b"
          [("l1", "x"), ("l2", "y")]) :=
  ⟨by decide,
    test_layered_contexts_shape (fun _ => 0) (fun _ => ("", 0)) "b"
      [("l1", "x"), ("l2", "y")] (by decide)⟩
